import Mathlib

/-!
Verification of the bgpstream Rust binding core: the element decoders of
`src/element.rs` and the stream state machine / iterator adapter of
`src/stream.rs`, shallowly embedded in Lean.

Conventions of the embedding:
* machine integers become `Nat` (unsigned) or `Int` (C `int` return codes);
  overflow is irrelevant to the modelled code paths except in `u32_from_str`,
  where the u32 bound is checked explicitly;
* the external collaborator (libbgpstream, reached through the generated
  `bgpstream_sys` bindings) is modelled by recording its responses as data
  inside the raw input structures: the result of `bgpstream_ipv2number`, the
  result and buffer of `bgpstream_as_path_snprintf`, the size and per-index
  answers of the community-set accessors, and the sequence of
  `bgpstream_get_next_record` responses;
* fallible Rust code returning `Result` becomes `Except`; the `.unwrap()`
  calls in the PeerState arm of `Element::create` (which abort the process)
  are modelled by a dedicated `fatal` outcome.
-/

/-- Error type of `element.rs` (`ElementError`). -/
inductive ElementError where
  | IpParseError (msg : String)
  | AsnParseError
  | Utf8Error (msg : String)
  | UnexpectedType
  | StringParseError
deriving DecidableEq, Repr

/-- Typed IP address (`std::net::IpAddr`). `V4` keeps the raw `u32` that Rust
passes to `Ipv4Addr::from`; `V6` keeps the 16 raw bytes. -/
inductive IpAddr where
  | V4 (s_addr : Nat)
  | V6 (bytes : List Nat)
deriving DecidableEq, Repr

/-- Big-endian octets of an IPv4 address, as `Ipv4Addr::from(u32)` renders it. -/
def ipv4Octets (n : Nat) : Nat × Nat × Nat × Nat :=
  (n / 16777216 % 256, n / 65536 % 256, n / 256 % 256, n % 256)

/-- Named peer-session states (`PeerState` in `element.rs`). -/
inductive PeerState where
  | Active
  | Clearing
  | Connect
  | Deleted
  | Established
  | Idle
  | OpenConfirm
  | OpenSent
  | Unknown
deriving DecidableEq, Repr

/-- Numeric-code-to-enumeration mapping `PeerState::from_u32` (derived
`FromPrimitive`). The discriminants come from the external `bgpstream_sys`
bindings (libbgpstream `bgpstream_elem_peerstate_t`): UNKNOWN = 0, IDLE = 1,
CONNECT = 2, ACTIVE = 3, OPENSENT = 4, OPENCONFIRM = 5, ESTABLISHED = 6,
CLEARING = 7, DELETED = 8. The claims below never depend on the concrete
numbers, only on which codes are mapped. -/
def PeerState.from_u32 (n : Nat) : Option PeerState :=
  match n with
  | 0 => some .Unknown
  | 1 => some .Idle
  | 2 => some .Connect
  | 3 => some .Active
  | 4 => some .OpenSent
  | 5 => some .OpenConfirm
  | 6 => some .Established
  | 7 => some .Clearing
  | 8 => some .Deleted
  | _ => none

/-- Element-type tags (`ElementType` in `element.rs`). -/
inductive ElementType where
  | Announcement
  | PeerState
  | Rib
  | Unknown
  | Withdrawl
deriving DecidableEq, Repr

/-- Numeric-tag-to-enumeration mapping `ElementType::from_u32` (derived
`FromPrimitive`). Discriminants from the external bindings (libbgpstream
`bgpstream_elem_type_t`): UNKNOWN = 0, RIB = 1, ANNOUNCEMENT = 2,
WITHDRAWAL = 3, PEERSTATE = 4. The claims never depend on the concrete
numbers, only on the tag an input maps to. -/
def ElementType.from_u32 (n : Nat) : Option ElementType :=
  match n with
  | 0 => some .Unknown
  | 1 => some .Rib
  | 2 => some .Announcement
  | 3 => some .Withdrawl
  | 4 => some .PeerState
  | _ => none

/-- One AS-path entry (`PathEntry`): a single AS number or an unordered
collection (AS-set / confederation). -/
inductive PathEntry where
  | As (asn : Nat)
  | Collection (asns : List Nat)
deriving DecidableEq, Repr

/-- Rust `type AsPath = Vec of PathEntry`. -/
abbrev AsPath : Type := List PathEntry

/-- Rust `type CommunitySet = Vec of (ASN, u16)`. -/
abbrev CommunitySet : Type := List (Nat × Nat)

deriving instance DecidableEq for Except

/-- Decoded prefix (`Prefix`): address plus mask length. -/
structure Prefix where
  addr : IpAddr
  length : Nat
deriving DecidableEq, Repr

/-- Payload of an Announcement or Rib element (`AnnouncementData`). -/
structure AnnouncementData where
  prefix_ : Prefix
  next_hop : IpAddr
  as_path : List PathEntry
  communities : List (Nat × Nat)
deriving DecidableEq, Repr

/-- Payload of a Withdrawl element (`WithdrawlData`). -/
structure WithdrawlData where
  prefix_ : Prefix
deriving DecidableEq, Repr

/-- Payload of a PeerState element (`PeerData`). -/
structure PeerData where
  old_peer_state : PeerState
  new_peer_state : PeerState
deriving DecidableEq, Repr

/-- The payload variants of a decoded element (`ElementData`). -/
inductive ElementData where
  | Announcement (d : AnnouncementData)
  | Rib (d : AnnouncementData)
  | Withdrawl (d : WithdrawlData)
  | PeerState (d : PeerData)
deriving DecidableEq, Repr

/-- A fully decoded element (`Element`). The `SystemTime` timestamp is kept as
its seconds-since-epoch value. -/
structure Element where
  timestamp : Nat
  peer_addr : IpAddr
  peer_asn : Nat
  project : String
  collector : String
  data : ElementData
deriving DecidableEq, Repr

/-- Raw address storage (`bgpstream_addr_storage_t`). `version_number` records
the external collaborator response `bgpstream_ipv2number(version)` for this
value; `ipv4_s_addr` and `ipv6_bytes` are the two members of the union. -/
structure BgpstreamAddrStorage where
  version : Nat
  version_number : Int
  ipv4_s_addr : Nat
  ipv6_bytes : List Nat
deriving DecidableEq, Repr

/-- Raw prefix field of a raw element. -/
structure RawPrefix where
  address : BgpstreamAddrStorage
  mask_len : Nat
deriving DecidableEq, Repr

/-- Raw AS-path handle, modelled by the collaborator responses that
`parse_as_path` consumes: the return value of
`bgpstream_as_path_snprintf(buf, 4096, path)` and the bytes the call leaves in
the buffer before the nul terminator. -/
structure RawAsPath where
  snprintf_written : Int
  buffer_bytes : List Nat
deriving DecidableEq, Repr

/-- Raw community-set handle, modelled by the collaborator responses:
`size` is the result of `bgpstream_community_set_size`, and `items.getD i none`
is the (possibly null) answer of `bgpstream_community_set_get` at index `i`. -/
structure RawCommunitySet where
  size : Int
  items : List (Option (Nat × Nat))
deriving DecidableEq, Repr

/-- Raw element record (`bgpstream_elem_t`), restricted to the fields
`Element::create` reads. The Rust keyword-avoiding name `type_` is kept;
`prefix` is a Lean keyword, hence `prefix_`. -/
structure RawElem where
  type_ : Nat
  timestamp : Nat
  peer_address : BgpstreamAddrStorage
  peer_asnumber : Nat
  prefix_ : RawPrefix
  nexthop : BgpstreamAddrStorage
  aspath : RawAsPath
  communities : RawCommunitySet
  old_state : Nat
  new_state : Nat
deriving DecidableEq, Repr

/-- Attributes of a raw container record: the two fixed-width text buffers,
reinterpreted from `i8` to `u8` exactly as `Element::create` does. -/
structure RawRecordAttributes where
  dump_collector : List Nat
  dump_project : List Nat
deriving DecidableEq, Repr

/-- Raw container record (`bgpstream_record_t`), restricted to the fields the
decoder reads. -/
structure RawRecord where
  attributes : RawRecordAttributes
deriving DecidableEq, Repr

/-- Continuation-byte test for UTF-8 validation. -/
def isCont (b : Nat) : Bool := 0x80 ≤ b && b ≤ 0xBF

/-- Constraint on the second byte of a three-byte UTF-8 sequence with lead
byte `b` (rejecting overlong forms and surrogates, as Rust str validation
does). -/
def cont2ok (b b2 : Nat) : Bool :=
  if b = 0xE0 then 0xA0 ≤ b2 && b2 ≤ 0xBF
  else if b = 0xED then 0x80 ≤ b2 && b2 ≤ 0x9F
  else isCont b2

/-- Constraint on the second byte of a four-byte UTF-8 sequence with lead byte
`b` (rejecting overlong forms and codepoints above 0x10FFFF). -/
def cont3ok (b b2 : Nat) : Bool :=
  if b = 0xF0 then 0x90 ≤ b2 && b2 ≤ 0xBF
  else if b = 0xF4 then 0x80 ≤ b2 && b2 ≤ 0x8F
  else isCont b2

/-- Strict UTF-8 decoding of a byte list, as performed by Rust
`str::from_utf8` (used through `CStr::to_str`): rejects truncated sequences,
bad continuation bytes, overlong encodings, surrogates, and codepoints above
0x10FFFF. Returns the decoded characters on success. -/
def utf8Decode : List Nat → Option (List Char)
  | [] => some []
  | b :: rest =>
    if b ≤ 0x7F then
      match utf8Decode rest with
      | some cs => some (Char.ofNat b :: cs)
      | none => none
    else if 0xC2 ≤ b && b ≤ 0xDF then
      match rest with
      | b2 :: rest2 =>
        if isCont b2 then
          match utf8Decode rest2 with
          | some cs => some (Char.ofNat ((b - 0xC0) * 0x40 + (b2 - 0x80)) :: cs)
          | none => none
        else none
      | [] => none
    else if 0xE0 ≤ b && b ≤ 0xEF then
      match rest with
      | b2 :: b3 :: rest3 =>
        if cont2ok b b2 && isCont b3 then
          match utf8Decode rest3 with
          | some cs =>
            some (Char.ofNat ((b - 0xE0) * 0x1000 + (b2 - 0x80) * 0x40 + (b3 - 0x80)) :: cs)
          | none => none
        else none
      | _ => none
    else if 0xF0 ≤ b && b ≤ 0xF4 then
      match rest with
      | b2 :: b3 :: b4 :: rest4 =>
        if cont3ok b b2 && isCont b3 && isCont b4 then
          match utf8Decode rest4 with
          | some cs =>
            some (Char.ofNat
              ((b - 0xF0) * 0x40000 + (b2 - 0x80) * 0x1000 + (b3 - 0x80) * 0x40 + (b4 - 0x80)) :: cs)
          | none => none
        else none
      | _ => none
    else none

/-- Bytes of an ASCII string, used to feed concrete text into the byte-level
decoders. -/
def asciiBytes (s : String) : List Nat := s.toList.map Char.toNat

/-- Message recorded in `ElementError::Utf8Error`. The Rust code stores
`Utf8Error::description()`; the exact wording is immaterial to every claim,
so a fixed modelled string is used. -/
def utf8ErrorMessage : String := "invalid utf-8 sequence"

/-- Decimal digits to a number; `none` when empty or containing a non-digit.
Helper for `u32_from_str`. -/
def digitsToNat? (cs : List Char) : Option Nat :=
  match cs with
  | [] => none
  | _ =>
    if cs.all Char.isDigit then
      some (cs.foldl (fun acc c => acc * 10 + (c.toNat - 48)) 0)
    else none

/-- Rust `u32::from_str` on a character list: an optional leading plus sign,
then one or more ASCII digits, value below 2^32; anything else is a
`ParseIntError`, which the `From` impl in `element.rs` converts to
`ElementError::AsnParseError`. -/
def u32_from_chars (cs : List Char) : Except ElementError Nat :=
  let digits :=
    match cs with
    | c :: rest => if c = '+' then rest else c :: rest
    | [] => []
  match digitsToNat? digits with
  | none => .error .AsnParseError
  | some n => if n < 4294967296 then .ok n else .error .AsnParseError

/-- Rust `u32::from_str`. -/
def u32_from_str (s : String) : Except ElementError Nat :=
  u32_from_chars s.toList

/-- Rust `str::split(sep)` for a single separator character: splits into the
maximal runs between separator occurrences, keeping empty tokens, with the
empty input giving one empty token. -/
def splitOnChar (sep : Char) : List Char → List (List Char)
  | [] => [[]]
  | c :: rest =>
    if c = sep then [] :: splitOnChar sep rest
    else
      match splitOnChar sep rest with
      | [] => [[c]]
      | t :: ts => (c :: t) :: ts

/-- Character class trimmed by the `trim_matches` call in `as_path_from_str`:
every grouping delimiter, opening or closing. -/
def isBracketChar (c : Char) : Bool :=
  c = Char.ofNat 123 || c = '[' || c = '(' || c = Char.ofNat 125 || c = ']' || c = ')'

/-- Rust `str::trim_matches` with a character-class predicate: drop matching
characters from both ends. -/
def trimMatchesList (p : Char → Bool) (cs : List Char) : List Char :=
  ((cs.dropWhile p).reverse.dropWhile p).reverse

/-- Test performed by `as_path_from_str` on each token: does it start with an
opening grouping delimiter (`starts_with` on the three opening characters)? -/
def startsWithOpenBracket (node : List Char) : Bool :=
  match node with
  | [] => false
  | c :: _ => c = Char.ofNat 123 || c = '[' || c = '('

/-- Decoding of one space-separated token of a rendered AS path, as in the
loop body of `as_path_from_str`: a token starting with an opening grouping
delimiter is trimmed of all delimiter characters at both ends, split on
commas and parsed as a `Collection`; any other token is parsed as a single AS
number. -/
def parsePathNode (node : List Char) : Except ElementError PathEntry :=
  if startsWithOpenBracket node then
    let trimmed := trimMatchesList isBracketChar node
    match (splitOnChar ',' trimmed).mapM u32_from_chars with
    | .ok sub_res => .ok (.Collection sub_res)
    | .error e => .error e
  else
    match u32_from_chars node with
    | .ok n => .ok (.As n)
    | .error e => .error e

/-- Rust `as_path_from_str`: split the rendered text on the space character
and decode the tokens in order, short-circuiting on the first failure. -/
def as_path_from_str (path_str : String) : Except ElementError AsPath :=
  (splitOnChar ' ' path_str.toList).mapM parsePathNode

/-- Rust `parse_as_path`: render the path through the collaborator into a
4096-byte buffer; a result of 4096 or more means truncation and fails; the
buffer contents are then UTF-8 checked (`CStr::to_str`) and parsed. -/
def parse_as_path (path : RawAsPath) : Except ElementError AsPath :=
  if 4096 ≤ path.snprintf_written then .error .AsnParseError
  else
    match utf8Decode path.buffer_bytes with
    | none => .error (.Utf8Error utf8ErrorMessage)
    | some cs => as_path_from_str (String.mk cs)

/-- Rust `parse_addr`: dispatch on the collaborator response
`bgpstream_ipv2number(addr.version)`; 4 selects the IPv4 union member, 6 the
IPv6 one, anything else is an `IpParseError` naming the raw version field. -/
def parse_addr (addr : BgpstreamAddrStorage) : Except ElementError IpAddr :=
  match addr.version_number with
  | 4 => .ok (.V4 addr.ipv4_s_addr)
  | 6 => .ok (.V6 addr.ipv6_bytes)
  | _ => .error (.IpParseError ("Incorrect address version " ++ toString addr.version))

/-- Rust `parse_communities`: for each index from 0 to size − 1 (a C `int`;
the Rust range `0..n` is empty when `n ≤ 0`), a null answer fails the whole
decode with `AsnParseError`, otherwise the (asn, value) pair is appended. -/
def parse_communities (comm : RawCommunitySet) : Except ElementError CommunitySet :=
  (List.range comm.size.toNat).mapM fun i =>
    match comm.items.getD i none with
    | none => (.error .AsnParseError : Except ElementError (Nat × Nat))
    | some c => .ok c

/-- Rust `CStr::from_bytes_with_nul`: succeeds exactly when the slice is
nonempty, ends with a nul byte and has no interior nul; returns the content
without the terminator. -/
def cstr_from_bytes_with_nul (bytes : List Nat) : Option (List Nat) :=
  match bytes.getLast? with
  | some 0 => if bytes.dropLast.contains 0 then none else some bytes.dropLast
  | _ => none

/-- Rust `str_from_buf`: compute `len` as one past the first nul byte, or the
whole buffer length when there is none; re-check the prefix with
`CStr::from_bytes_with_nul` (failure becomes `StringParseError`); UTF-8
validate the content (failure becomes `Utf8Error`). -/
def str_from_buf (buf : List Nat) : Except ElementError String :=
  let len :=
    match buf.findIdx? (fun b => b == 0) with
    | none => buf.length
    | some i => i + 1
  match cstr_from_bytes_with_nul (buf.take len) with
  | none => .error .StringParseError
  | some content =>
    match utf8Decode content with
    | none => .error (.Utf8Error utf8ErrorMessage)
    | some cs => .ok (String.mk cs)

/-- Outcome of a decode step that may also abort the process (the
`.unwrap()` calls in the PeerState arm): success, recoverable error, or
fatal abort. -/
inductive DecodeOutcome (α : Type) where
  | ok (a : α)
  | err (e : ElementError)
  | fatal
deriving DecidableEq, Repr

/-- Sequencing of a fallible sub-decode (the Rust `?` operator) inside a
computation that may abort. -/
def DecodeOutcome.bindE {α β : Type} (x : Except ElementError α)
    (f : α → DecodeOutcome β) : DecodeOutcome β :=
  match x with
  | .ok a => f a
  | .error e => .err e

/-- The tag-dependent payload decode of `Element::create` (the `let data =
match element_type` expression of element.rs): each required field
short-circuits with its own error (`bindE` is the `?` operator), the
`Unknown` tag fails with `UnexpectedType`, and an unmapped peer-state code
aborts (`.unwrap()` on `None`). -/
def decodeElementData (element_type : ElementType) (element : RawElem) :
    DecodeOutcome ElementData :=
  match element_type with
  | .Announcement =>
    DecodeOutcome.bindE (parse_addr element.prefix_.address) fun a =>
    DecodeOutcome.bindE (parse_addr element.nexthop) fun nh =>
    DecodeOutcome.bindE (parse_as_path element.aspath) fun p =>
    DecodeOutcome.bindE (parse_communities element.communities) fun cs =>
    .ok (.Announcement ⟨⟨a, element.prefix_.mask_len⟩, nh, p, cs⟩)
  | .Rib =>
    DecodeOutcome.bindE (parse_addr element.prefix_.address) fun a =>
    DecodeOutcome.bindE (parse_addr element.nexthop) fun nh =>
    DecodeOutcome.bindE (parse_as_path element.aspath) fun p =>
    DecodeOutcome.bindE (parse_communities element.communities) fun cs =>
    .ok (.Rib ⟨⟨a, element.prefix_.mask_len⟩, nh, p, cs⟩)
  | .Withdrawl =>
    DecodeOutcome.bindE (parse_addr element.prefix_.address) fun a =>
    .ok (.Withdrawl ⟨⟨a, element.prefix_.mask_len⟩⟩)
  | .PeerState =>
    match PeerState.from_u32 element.old_state with
    | none => .fatal
    | some o =>
      match PeerState.from_u32 element.new_state with
      | none => .fatal
      | some n => .ok (.PeerState ⟨o, n⟩)
  | .Unknown => .err .UnexpectedType

/-- Rust `Element::create` (element.rs lines 97-158): map the numeric type tag
(`UnexpectedType` when unmapped); decode the tag-dependent payload through
`decodeElementData`; then decode the shared fields in struct-literal order
(timestamp, peer address, peer ASN, collector, project). The two text buffers
come from the parent record. -/
def Element.create (element : RawElem) (record : RawRecord) : DecodeOutcome Element :=
  match ElementType.from_u32 element.type_ with
  | none => .err .UnexpectedType
  | some element_type =>
    match decodeElementData element_type element with
    | .fatal => .fatal
    | .err e => .err e
    | .ok data =>
      DecodeOutcome.bindE (parse_addr element.peer_address) fun pa =>
      DecodeOutcome.bindE (str_from_buf record.attributes.dump_collector) fun coll =>
      DecodeOutcome.bindE (str_from_buf record.attributes.dump_project) fun proj =>
      .ok { timestamp := element.timestamp
            peer_addr := pa
            peer_asn := element.peer_asnumber
            project := proj
            collector := coll
            data := data }

/-- Concrete container record used by the witnesses: collector text `rrc00`
and project text `ris`, both nul-terminated within bounds. -/
def sampleRecord : RawRecord :=
  ⟨⟨asciiBytes "rrc00" ++ [0], asciiBytes "ris" ++ [0]⟩⟩

/-- Concrete raw peer-state element used by the witnesses: tag 4 (PeerState),
old state code 1 (Idle), new state code 6 (Established), IPv4 peer address. -/
def samplePeerElem : RawElem :=
  { type_ := 4
    timestamp := 1567756800
    peer_address := ⟨4, 4, 0, []⟩
    peer_asnumber := 65000
    prefix_ := ⟨⟨4, 4, 0, []⟩, 24⟩
    nexthop := ⟨4, 4, 0, []⟩
    aspath := ⟨1, asciiBytes "1"⟩
    communities := ⟨0, []⟩
    old_state := 1
    new_state := 6 }

/-- Element expected from decoding `samplePeerElem` against `sampleRecord`. -/
def samplePeerElement : Element :=
  { timestamp := 1567756800
    peer_addr := .V4 0
    peer_asn := 65000
    project := "ris"
    collector := "rrc00"
    data := .PeerState ⟨.Idle, .Established⟩ }

/-- Concrete raw announcement element used by the witnesses: tag 2
(Announcement), one-hop AS path, one community. -/
def sampleAnnElem : RawElem :=
  { type_ := 2
    timestamp := 1567756800
    peer_address := ⟨4, 4, 0, []⟩
    peer_asnumber := 65000
    prefix_ := ⟨⟨4, 4, 167772160, []⟩, 8⟩
    nexthop := ⟨4, 4, 167837953, []⟩
    aspath := ⟨7, asciiBytes "100 200"⟩
    communities := ⟨1, [some (64512, 20)]⟩
    old_state := 0
    new_state := 0 }

/-- Concrete raw withdrawal element used by the witnesses: tag 3 (Withdrawal)
with a valid prefix but deliberately undecodable next-hop, AS-path and
community fields — the Withdrawal arm of `Element::create` never reads
them. -/
def sampleWithdrawElem : RawElem :=
  { type_ := 3
    timestamp := 1567756800
    peer_address := ⟨4, 4, 0, []⟩
    peer_asnumber := 65000
    prefix_ := ⟨⟨4, 4, 167772160, []⟩, 8⟩
    nexthop := ⟨0, 0, 0, []⟩
    aspath := ⟨4096, []⟩
    communities := ⟨1, [none]⟩
    old_state := 0
    new_state := 0 }

/-- Container record whose collector buffer has no terminator in bounds, used
to witness the shared-field failure propagation. -/
def badCollectorRecord : RawRecord :=
  ⟨⟨asciiBytes "rrc00", asciiBytes "ris" ++ [0]⟩⟩

/-- Stream lifecycle states (`StreamState` in `stream.rs`), ordered by
declaration order as Rust's derived `Ord` does. -/
inductive StreamState where
  | New
  | IntervalSet
  | Started
  | Ongoing
  | Complete
deriving DecidableEq, Repr

/-- Rank of a state in the derived ordering. -/
def StreamState.rank : StreamState → Nat
  | .New => 0
  | .IntervalSet => 1
  | .Started => 2
  | .Ongoing => 3
  | .Complete => 4

/-- The derived `Ord` comparison `a >= b` used by the guards in `stream.rs`. -/
def StreamState.ge (a b : StreamState) : Bool := Nat.ble b.rank a.rank

/-- Error type of `stream.rs` (`BGPStreamError`). -/
inductive BGPStreamError where
  | Construction
  | InvalidFilter (msg : String)
  | OperationOutOfOrder (msg : String)
  | StartFailed
  | RecordGetFailure
  | ElementFailure (e : ElementError)
deriving DecidableEq, Repr

namespace Bgp

/-- The stream, restricted to the field the claims are about: its lifecycle
state. The two raw collaborator handles (`internal`, `record`) carry no
modelled state of their own; the record-buffer contents live in `IterState`
below. (Namespaced because Mathlib already declares a `Stream`.) -/
structure Stream where
  state : StreamState
deriving DecidableEq, Repr

/-- Rust `Stream::add_filter`. `parse_result` is the collaborator response of
`bgpstream_parse_filter_string` (0 means rejection). `CString::new` fails on
an interior nul character, converted by the `From` impl to `InvalidFilter`.
The function returns the result together with the stream as left behind, so
that state effects on error paths stay visible. -/
def Stream.add_filter (s : Stream) (filter : String) (parse_result : Int) :
    Except BGPStreamError Unit × Stream :=
  if StreamState.ge s.state .Started then
    (.error (.OperationOutOfOrder "Cannot add filter after running"), s)
  else if (filter.toList).contains (Char.ofNat 0) then
    (.error (.InvalidFilter "Null character in filter string"), s)
  else if parse_result = 0 then
    (.error (.InvalidFilter filter), s)
  else
    (.ok (), s)

/-- Rust `Stream::add_interval_filter`: guarded by the same state check; sets
the state to `IntervalSet` and forwards both bounds to the collaborator
(which returns nothing). -/
def Stream.add_interval_filter (s : Stream) (begin_time end_time : Nat) :
    Except BGPStreamError Unit × Stream :=
  if StreamState.ge s.state .Started then
    (.error (.OperationOutOfOrder "Cannot change interval after running"), s)
  else
    (.ok (), { s with state := .IntervalSet })

/-- Rust `Stream::iter`: guarded by the state check; sets the state to
`Started` and only then calls the collaborator start operation, whose result
code is `start_result` (0 means success). On success the returned iteration
handle (which mutably borrows the stream) is modelled by the unit value. -/
def Stream.iter (s : Stream) (start_result : Int) :
    Except BGPStreamError Unit × Stream :=
  if StreamState.ge s.state .Started then
    (.error (.OperationOutOfOrder
      "Must start after interval is set and can only be done once"), s)
  else
    let s2 : Stream := { s with state := .Started }
    if start_result = 0 then (.ok (), s2) else (.error .StartFailed, s2)

end Bgp

/-- One collaborator response to `bgpstream_get_next_record`: the signed
return code and, when positive, the record placed in the buffer together with
the elements that successive `bgpstream_record_get_next_elem` calls on that
record will yield before the null sentinel. -/
structure RecResponse where
  ret_code : Int
  record : RawRecord
  elems : List RawElem
deriving DecidableEq, Repr

/-- State of the stream as seen by the iterator adapter: the lifecycle state,
the contents of the reusable record buffer (the current record and its not yet
consumed elements), and the remaining collaborator responses to future
record pulls. An empty `env` means the collaborator reports exhaustion
(return code 0) from now on — the precondition that the record stream is
eventually exhausted. -/
structure IterState where
  state : StreamState
  record : RawRecord
  pending : List RawElem
  env : List RecResponse
deriving DecidableEq, Repr

/-- Result of one `Iter::next` call: either a yielded item (`none` is
end-of-sequence) together with the stream state left behind, or a process
abort (a failed `assert!` or a propagated `.unwrap()` panic). -/
inductive StepResult where
  | yield (out : Option (Except BGPStreamError Element)) (s : IterState)
  | fatal
deriving DecidableEq, Repr

/-- The record-pull block of `Iter::next` (the `if current_state == Started`
body): when the state is `Started`, consume the next collaborator response; a
negative code completes the stream with a `RecordGetFailure` item, a zero
code completes it with end-of-sequence, a positive code advances to `Ongoing`
and loads the record buffer. `Except.error` models the early returns. -/
def pullRecord (s : IterState) : Except StepResult IterState :=
  if s.state = .Started then
    match s.env with
    | [] => .error (.yield none { s with state := .Complete })
    | r :: rest =>
      if r.ret_code < 0 then
        .error (.yield (some (.error .RecordGetFailure))
          { s with state := .Complete, env := rest })
      else if r.ret_code = 0 then
        .error (.yield none { s with state := .Complete, env := rest })
      else
        .ok { s with state := .Ongoing, env := rest,
                     record := r.record, pending := r.elems }
  else .ok s

/-- Rust `Iter::next` (stream.rs lines 112-144): assert the state is at least
`Started`; yield end-of-sequence immediately when `Complete`; pull a record
when `Started`; then pull the next element of the current record — the null
sentinel regresses the state to `Started` and retries recursively, otherwise
the element decoder runs on the element and the current record buffer and its
result is yielded with the state left `Ongoing`. (The call site at
stream.rs:138 spells `Element::create(raw_elem)` without the record argument;
the decoder in element.rs takes the element and its parent record, which is
the record buffer passed here.) -/
def iterNext (s : IterState) : StepResult :=
  if ¬ StreamState.ge s.state .Started then .fatal
  else if s.state = .Complete then .yield none s
  else
    match hpull : pullRecord s with
    | .error early => early
    | .ok s2 =>
      match s2.pending with
      | [] => iterNext { s2 with state := .Started }
      | e :: es =>
        match Element.create e s2.record with
        | .ok el => .yield (some (.ok el)) { s2 with pending := es }
        | .err er => .yield (some (.error (.ElementFailure er))) { s2 with pending := es }
        | .fatal => .fatal
termination_by 2 * s.env.length + (if s.state = .Ongoing then 1 else 0)
decreasing_by
  have hfacts : (s.state = StreamState.Started ∧ s2.state = StreamState.Ongoing ∧
      s2.env.length + 1 = s.env.length) ∨ (¬ s.state = StreamState.Started ∧ s2 = s) := by
    have h := hpull
    by_cases hs : s.state = StreamState.Started
    · left
      simp only [pullRecord, hs, if_pos] at h
      rcases henv : s.env with _ | ⟨r, rest⟩
      · rw [henv] at h
        simp at h
      · rw [henv] at h
        by_cases hneg : r.ret_code < 0
        · simp [hneg] at h
        · by_cases hzero : r.ret_code = 0
          · simp [hneg, hzero] at h
          · simp only [hneg, hzero, if_neg, if_false] at h
            cases h
            simp [hs, henv]
    · right
      simp only [pullRecord, hs, if_neg, if_false] at h
      cases h
      exact ⟨hs, rfl⟩
  rcases hfacts with ⟨h1, h2, h3⟩ | ⟨h1, h2⟩
  · rw [show (if False then 1 else 0) = 0 from rfl]
    split <;> omega
  · rw [h2]
    have hma : ¬ s.state = StreamState.Complete := by assumption
    have hmb : ¬ ¬ StreamState.ge s.state StreamState.Started = true := by assumption
    have hOn : s.state = StreamState.Ongoing := by
      revert h1 hma hmb
      cases hst : s.state <;> simp [StreamState.ge, StreamState.rank, Nat.ble]
    rw [show (if False then 1 else 0) = 0 from rfl, hOn]
    simp

@[simp] theorem DecodeOutcome.bindE_ok {α β : Type} (a : α) (f : α → DecodeOutcome β) :
    DecodeOutcome.bindE (.ok a) f = f a := rfl

@[simp] theorem DecodeOutcome.bindE_error {α β : Type} (e : ElementError)
    (f : α → DecodeOutcome β) : DecodeOutcome.bindE (.error e) f = .err e := rfl

example : Element.create samplePeerElem sampleRecord = .ok samplePeerElement := by decide

example : str_from_buf (asciiBytes "rrc00" ++ [0, 65]) = .ok "rrc00" := by decide
example : str_from_buf (asciiBytes "rrc00") = .error .StringParseError := by decide
example : str_from_buf [255, 0] = .error (.Utf8Error utf8ErrorMessage) := by decide

/-- Indexwise characterization of a successful `List.mapM` over `Except`:
the output has the same length as the input and each output entry is the
successful image of the input entry at the same position. -/
theorem mapM_ok_length_get {ε α β : Type} (f : α → Except ε β) :
    ∀ (l : List α) (r : List β), List.mapM f l = .ok r →
      r.length = l.length ∧
      ∀ (i : Nat) (hl : i < l.length) (hr : i < r.length),
        f (l.get ⟨i, hl⟩) = .ok (r.get ⟨i, hr⟩) := by
  intro l
  induction l with
  | nil =>
    intro r h
    simp only [List.mapM_nil, pure, Except.pure, Except.ok.injEq] at h
    subst h
    exact ⟨rfl, fun i hl => absurd hl (by simp)⟩
  | cons a l ih =>
    intro r h
    rw [List.mapM_cons] at h
    cases hfa : f a with
    | error e =>
      rw [hfa] at h
      simp [Bind.bind, Except.bind] at h
    | ok b =>
      rw [hfa] at h
      cases hml : List.mapM f l with
      | error e =>
        rw [hml] at h
        simp [Bind.bind, Except.bind, pure, Except.pure] at h
      | ok bs =>
        rw [hml] at h
        simp only [Bind.bind, Except.bind, pure, Except.pure, Except.ok.injEq] at h
        subst h
        obtain ⟨hlen, hget⟩ := ih bs hml
        refine ⟨by simp [hlen], ?_⟩
        intro i hl hr
        cases i with
        | zero => simpa using hfa
        | succ j =>
          simp only [List.get_cons_succ]
          exact hget j (by simpa using hl) (by simpa using hr)

/-- A buffer without a nul byte fails the CStr re-check on its whole length. -/
theorem cstr_of_no_nul {buf : List Nat} (h : buf.findIdx? (fun b => b == 0) = none) :
    cstr_from_bytes_with_nul (buf.take buf.length) = none := by
  rw [List.take_length]
  have hall : ∀ x ∈ buf, x ≠ 0 := by
    intro x hx
    have := List.findIdx?_eq_none_iff.mp h x hx
    simpa using this
  rcases hlast : buf.getLast? with _ | v
  · simp [cstr_from_bytes_with_nul, hlast]
  · rcases v with _ | v
    · exact absurd rfl (hall 0 (List.mem_of_getLast?_eq_some hlast))
    · simp [cstr_from_bytes_with_nul, hlast]

/-- A buffer whose first nul byte sits at index `i` passes the CStr re-check
on its first `i + 1` bytes, yielding the `i` content bytes. -/
theorem cstr_of_first_nul {buf : List Nat} {i : Nat}
    (h : buf.findIdx? (fun b => b == 0) = some i) :
    cstr_from_bytes_with_nul (buf.take (i + 1)) = some (buf.take i) := by
  obtain ⟨hi, hpi, hbefore⟩ := List.findIdx?_eq_some_iff_getElem.mp h
  have hval : buf[i] = 0 := by simpa using hpi
  have htake : buf.take (i + 1) = buf.take i ++ [0] := by
    rw [List.take_succ, List.getElem?_eq_getElem hi, hval]
    rfl
  have hnomem : ¬ (0 : Nat) ∈ buf.take i := by
    intro hmem
    obtain ⟨n, hfind⟩ := List.mem_iff_getElem?.mp hmem
    have hn : n < i := by
      by_contra hge
      have hlen : (buf.take i).length ≤ n := by
        rw [List.length_take]
        exact le_trans (Nat.min_le_left _ _) (Nat.le_of_not_lt hge)
      rw [List.getElem?_eq_none hlen] at hfind
      exact Option.noConfusion hfind
    rw [List.getElem?_take_of_lt hn, List.getElem?_eq_getElem (Nat.lt_trans hn hi)] at hfind
    have hbn := Option.some.inj hfind
    exact (hbefore n hn) (by simp [hbn])
  rw [htake]
  unfold cstr_from_bytes_with_nul
  rw [List.getLast?_concat, List.dropLast_concat]
  simp [hnomem]

/-- A pull that returns early (without reaching element extraction) always
leaves the stream `Complete`, and yields either end-of-sequence or the
record-retrieval failure. -/
theorem pullRecord_error {s : IterState} {r : StepResult}
    (h : pullRecord s = .error r) :
    ∃ o s2, r = .yield o s2 ∧ s2.state = .Complete ∧
      (o = none ∨ o = some (.error .RecordGetFailure)) := by
  unfold pullRecord at h
  split at h
  · split at h
    · cases h
      exact ⟨_, _, rfl, rfl, Or.inl rfl⟩
    · split at h
      · cases h
        exact ⟨_, _, rfl, rfl, Or.inr rfl⟩
      · split at h
        · cases h
          exact ⟨_, _, rfl, rfl, Or.inl rfl⟩
        · cases h
  · cases h

/-- A `Complete` stream yields end-of-sequence and is left untouched (no
collaborator response is consumed). -/
theorem iterNext_complete {s : IterState} (h : s.state = .Complete) :
    iterNext s = .yield none s := by
  unfold iterNext
  rw [if_neg (by simp [h, StreamState.ge, StreamState.rank]), if_pos h]

/-- Unfolding equation of `iterNext` for a pull that returns early from the
record-pull block. -/
theorem iterNext_pull_error {s : IterState} {early : StepResult}
    (hge : StreamState.ge s.state .Started = true) (hnc : ¬ s.state = .Complete)
    (hp : pullRecord s = .error early) :
    iterNext s = early := by
  unfold iterNext
  rw [if_neg (by simpa using hge), if_neg hnc]
  split
  · rename_i early' heq
    rw [hp] at heq
    cases heq
    rfl
  · rename_i s2 heq
    rw [hp] at heq
    cases heq

/-- Unfolding equation of `iterNext` when the loaded record has no pending
element: regress to `Started` and retry within the same call. -/
theorem iterNext_pull_ok_nil {s s2 : IterState}
    (hge : StreamState.ge s.state .Started = true) (hnc : ¬ s.state = .Complete)
    (hp : pullRecord s = .ok s2) (hpend : s2.pending = []) :
    iterNext s = iterNext { s2 with state := .Started } := by
  rw [iterNext.eq_def]
  rw [if_neg (by simpa using hge), if_neg hnc]
  split
  · rename_i early' heq
    rw [hp] at heq
    cases heq
  · rename_i s2' heq
    rw [hp] at heq
    cases heq
    simp only [hpend]

/-- Unfolding equation of `iterNext` when the loaded record has a pending
element: run the element decoder and yield its outcome, the state staying as
the record pull left it. -/
theorem iterNext_pull_ok_cons {s s2 : IterState} {e : RawElem} {es : List RawElem}
    (hge : StreamState.ge s.state .Started = true) (hnc : ¬ s.state = .Complete)
    (hp : pullRecord s = .ok s2) (hpend : s2.pending = e :: es) :
    iterNext s = (match Element.create e s2.record with
      | .ok el => .yield (some (.ok el)) { s2 with pending := es }
      | .err er => .yield (some (.error (.ElementFailure er))) { s2 with pending := es }
      | .fatal => .fatal) := by
  rw [iterNext.eq_def]
  rw [if_neg (by simpa using hge), if_neg hnc]
  split
  · rename_i early' heq
    rw [hp] at heq
    cases heq
  · rename_i s2' heq
    rw [hp] at heq
    cases heq
    simp only [hpend]

/-- Whenever a pull yields end-of-sequence, the stream state left behind is
`Complete`. -/
theorem iterNext_yield_none :
    ∀ (s : IterState), ∀ out_s, iterNext s = .yield none out_s →
      out_s.state = .Complete := by
  intro s
  induction s using iterNext.induct with
  | case1 x h =>
    intro out_s hy
    unfold iterNext at hy
    rw [if_pos h] at hy
    exact absurd hy (by simp)
  | case2 x h1 h2 =>
    intro out_s hy
    unfold iterNext at hy
    rw [if_neg h1, if_pos h2] at hy
    cases hy
    exact h2
  | case3 x h1 h2 early hpull =>
    intro out_s hy
    rw [iterNext_pull_error (not_not.mp h1) h2 hpull] at hy
    obtain ⟨o, s2, rfl, hc, _⟩ := pullRecord_error hpull
    cases hy
    exact hc
  | case4 x h1 h2 s2 hpull hpend ih =>
    intro out_s hy
    rw [iterNext_pull_ok_nil (not_not.mp h1) h2 hpull hpend] at hy
    exact ih out_s hy
  | case5 x h1 h2 s2 hpull e es hpend el hcr =>
    intro out_s hy
    rw [iterNext_pull_ok_cons (not_not.mp h1) h2 hpull hpend, hcr] at hy
    simp at hy
  | case6 x h1 h2 s2 hpull e es hpend er hcr =>
    intro out_s hy
    rw [iterNext_pull_ok_cons (not_not.mp h1) h2 hpull hpend, hcr] at hy
    simp at hy
  | case7 x h1 h2 s2 hpull e es hpend hcr =>
    intro out_s hy
    rw [iterNext_pull_ok_cons (not_not.mp h1) h2 hpull hpend, hcr] at hy
    simp at hy

/-- Claim C1: element decoding is all-or-nothing and tag-faithful. An
unmapped numeric tag or the explicit `Unknown` tag fails with
`UnexpectedType` and produces no element; any successfully produced element
carries the payload variant matching its tag; when every field the detected
variant actually requires (plus the shared fields) decodes, `Element::create`
succeeds with exactly those values — for Withdrawal only the prefix address
is required, the next-hop, AS-path and community fields being never read; and
whenever any required field fails to decode the whole decode fails with that
field's error, the first failure in decode order short-circuiting: this is
proved for every field of every variant (the four payload fields of
Announcement and Rib, the Withdrawal prefix, and the shared peer-address,
collector and project fields of all variants, the payload-stage error
propagating unchanged through `Element::create`), so no partially populated
element is ever returned. -/
theorem element_create_tag_spec :
    (∀ (e : RawElem) (r : RawRecord), ElementType.from_u32 e.type_ = none →
      Element.create e r = .err .UnexpectedType) ∧
    (∀ (e : RawElem) (r : RawRecord), ElementType.from_u32 e.type_ = some .Unknown →
      Element.create e r = .err .UnexpectedType) ∧
    (∀ (e : RawElem) (r : RawRecord) (el : Element), Element.create e r = .ok el →
      (ElementType.from_u32 e.type_ = some .Announcement → ∃ d, el.data = .Announcement d) ∧
      (ElementType.from_u32 e.type_ = some .Rib → ∃ d, el.data = .Rib d) ∧
      (ElementType.from_u32 e.type_ = some .Withdrawl → ∃ d, el.data = .Withdrawl d) ∧
      (ElementType.from_u32 e.type_ = some .PeerState → ∃ d, el.data = .PeerState d)) ∧
    (∀ (e : RawElem) (r : RawRecord) (a nh pa : IpAddr) (p : AsPath) (cs : CommunitySet)
      (coll proj : String),
      parse_addr e.prefix_.address = .ok a →
      parse_addr e.nexthop = .ok nh →
      parse_as_path e.aspath = .ok p →
      parse_communities e.communities = .ok cs →
      parse_addr e.peer_address = .ok pa →
      str_from_buf r.attributes.dump_collector = .ok coll →
      str_from_buf r.attributes.dump_project = .ok proj →
      (ElementType.from_u32 e.type_ = some .Announcement →
        Element.create e r = .ok ⟨e.timestamp, pa, e.peer_asnumber, proj, coll,
          .Announcement ⟨⟨a, e.prefix_.mask_len⟩, nh, p, cs⟩⟩) ∧
      (ElementType.from_u32 e.type_ = some .Rib →
        Element.create e r = .ok ⟨e.timestamp, pa, e.peer_asnumber, proj, coll,
          .Rib ⟨⟨a, e.prefix_.mask_len⟩, nh, p, cs⟩⟩)) ∧
    (∀ (e : RawElem) (r : RawRecord) (a pa : IpAddr) (coll proj : String),
      parse_addr e.prefix_.address = .ok a →
      parse_addr e.peer_address = .ok pa →
      str_from_buf r.attributes.dump_collector = .ok coll →
      str_from_buf r.attributes.dump_project = .ok proj →
      ElementType.from_u32 e.type_ = some .Withdrawl →
      Element.create e r = .ok ⟨e.timestamp, pa, e.peer_asnumber, proj, coll,
        .Withdrawl ⟨⟨a, e.prefix_.mask_len⟩⟩⟩) ∧
    (∀ (e : RawElem) (r : RawRecord) (o n : PeerState) (pa : IpAddr) (coll proj : String),
      PeerState.from_u32 e.old_state = some o →
      PeerState.from_u32 e.new_state = some n →
      parse_addr e.peer_address = .ok pa →
      str_from_buf r.attributes.dump_collector = .ok coll →
      str_from_buf r.attributes.dump_project = .ok proj →
      ElementType.from_u32 e.type_ = some .PeerState →
      Element.create e r =
        .ok ⟨e.timestamp, pa, e.peer_asnumber, proj, coll, .PeerState ⟨o, n⟩⟩) ∧
    (∀ (e : RawElem) (r : RawRecord),
      (ElementType.from_u32 e.type_ = some .Announcement ∨
        ElementType.from_u32 e.type_ = some .Rib) →
      (∀ er, parse_addr e.prefix_.address = .error er →
        Element.create e r = .err er) ∧
      (∀ a er, parse_addr e.prefix_.address = .ok a →
        parse_addr e.nexthop = .error er →
        Element.create e r = .err er) ∧
      (∀ a nh er, parse_addr e.prefix_.address = .ok a →
        parse_addr e.nexthop = .ok nh →
        parse_as_path e.aspath = .error er →
        Element.create e r = .err er) ∧
      (∀ a nh p er, parse_addr e.prefix_.address = .ok a →
        parse_addr e.nexthop = .ok nh →
        parse_as_path e.aspath = .ok p →
        parse_communities e.communities = .error er →
        Element.create e r = .err er)) ∧
    (∀ (e : RawElem) (r : RawRecord) (er : ElementError),
      ElementType.from_u32 e.type_ = some .Withdrawl →
      parse_addr e.prefix_.address = .error er →
      Element.create e r = .err er) ∧
    (∀ (e : RawElem) (r : RawRecord) (et : ElementType) (d : ElementData),
      ElementType.from_u32 e.type_ = some et →
      decodeElementData et e = .ok d →
      (∀ er, parse_addr e.peer_address = .error er →
        Element.create e r = .err er) ∧
      (∀ pa er, parse_addr e.peer_address = .ok pa →
        str_from_buf r.attributes.dump_collector = .error er →
        Element.create e r = .err er) ∧
      (∀ pa coll er, parse_addr e.peer_address = .ok pa →
        str_from_buf r.attributes.dump_collector = .ok coll →
        str_from_buf r.attributes.dump_project = .error er →
        Element.create e r = .err er)) := by
  refine ⟨?_, ?_, ?_, ?_, ?_, ?_, ?_, ?_, ?_⟩
  · intro e r h
    simp [Element.create, h]
  · intro e r h
    simp [Element.create, h, decodeElementData]
  · intro e r el h
    refine ⟨?_, ?_, ?_, ?_⟩ <;> intro ht <;>
      rw [Element.create, ht] at h <;> simp only [] at h
    · rcases hd : decodeElementData .Announcement e with d | er <;> rw [hd] at h
      case err => exact absurd h (by simp)
      case fatal => exact absurd h (by simp)
      · have hdann : ∃ ad, d = .Announcement ad := by
          revert hd
          unfold decodeElementData
          rcases parse_addr e.prefix_.address with a | er <;> simp
          rcases parse_addr e.nexthop with nh | er <;> simp
          rcases parse_as_path e.aspath with p | er <;> simp
          rcases parse_communities e.communities with cs | er <;> simp
          intro hd
          exact ⟨_, hd.symm⟩
        obtain ⟨ad, rfl⟩ := hdann
        rcases hpa : parse_addr e.peer_address with pa | er <;> rw [hpa] at h <;>
          simp only [DecodeOutcome.bindE_ok, DecodeOutcome.bindE_error] at h
        case error => exact absurd h (by simp)
        rcases hco : str_from_buf r.attributes.dump_collector with co | er <;> rw [hco] at h <;>
          simp only [DecodeOutcome.bindE_ok, DecodeOutcome.bindE_error] at h
        case error => exact absurd h (by simp)
        rcases hpr : str_from_buf r.attributes.dump_project with pr | er <;> rw [hpr] at h <;>
          simp only [DecodeOutcome.bindE_ok, DecodeOutcome.bindE_error] at h
        case error => exact absurd h (by simp)
        cases h
        exact ⟨ad, rfl⟩
    · rcases hd : decodeElementData .Rib e with d | er <;> rw [hd] at h
      case err => exact absurd h (by simp)
      case fatal => exact absurd h (by simp)
      · have hdann : ∃ ad, d = .Rib ad := by
          revert hd
          unfold decodeElementData
          rcases parse_addr e.prefix_.address with a | er <;> simp
          rcases parse_addr e.nexthop with nh | er <;> simp
          rcases parse_as_path e.aspath with p | er <;> simp
          rcases parse_communities e.communities with cs | er <;> simp
          intro hd
          exact ⟨_, hd.symm⟩
        obtain ⟨ad, rfl⟩ := hdann
        rcases hpa : parse_addr e.peer_address with pa | er <;> rw [hpa] at h <;>
          simp only [DecodeOutcome.bindE_ok, DecodeOutcome.bindE_error] at h
        case error => exact absurd h (by simp)
        rcases hco : str_from_buf r.attributes.dump_collector with co | er <;> rw [hco] at h <;>
          simp only [DecodeOutcome.bindE_ok, DecodeOutcome.bindE_error] at h
        case error => exact absurd h (by simp)
        rcases hpr : str_from_buf r.attributes.dump_project with pr | er <;> rw [hpr] at h <;>
          simp only [DecodeOutcome.bindE_ok, DecodeOutcome.bindE_error] at h
        case error => exact absurd h (by simp)
        cases h
        exact ⟨ad, rfl⟩
    · rcases hd : decodeElementData .Withdrawl e with d | er <;> rw [hd] at h
      case err => exact absurd h (by simp)
      case fatal => exact absurd h (by simp)
      · have hdann : ∃ wd, d = .Withdrawl wd := by
          revert hd
          unfold decodeElementData
          rcases parse_addr e.prefix_.address with a | er <;> simp
          intro hd
          exact ⟨_, hd.symm⟩
        obtain ⟨wd, rfl⟩ := hdann
        rcases hpa : parse_addr e.peer_address with pa | er <;> rw [hpa] at h <;>
          simp only [DecodeOutcome.bindE_ok, DecodeOutcome.bindE_error] at h
        case error => exact absurd h (by simp)
        rcases hco : str_from_buf r.attributes.dump_collector with co | er <;> rw [hco] at h <;>
          simp only [DecodeOutcome.bindE_ok, DecodeOutcome.bindE_error] at h
        case error => exact absurd h (by simp)
        rcases hpr : str_from_buf r.attributes.dump_project with pr | er <;> rw [hpr] at h <;>
          simp only [DecodeOutcome.bindE_ok, DecodeOutcome.bindE_error] at h
        case error => exact absurd h (by simp)
        cases h
        exact ⟨wd, rfl⟩
    · rcases hd : decodeElementData .PeerState e with d | er <;> rw [hd] at h
      case err => exact absurd h (by simp)
      case fatal => exact absurd h (by simp)
      · have hdps : ∃ pd, d = .PeerState pd := by
          revert hd
          unfold decodeElementData
          rcases PeerState.from_u32 e.old_state with _ | o <;> simp
          rcases PeerState.from_u32 e.new_state with _ | n <;> simp
          intro hd
          exact ⟨_, hd.symm⟩
        obtain ⟨pd, rfl⟩ := hdps
        rcases hpa : parse_addr e.peer_address with pa | er <;> rw [hpa] at h <;>
          simp only [DecodeOutcome.bindE_ok, DecodeOutcome.bindE_error] at h
        case error => exact absurd h (by simp)
        rcases hco : str_from_buf r.attributes.dump_collector with co | er <;> rw [hco] at h <;>
          simp only [DecodeOutcome.bindE_ok, DecodeOutcome.bindE_error] at h
        case error => exact absurd h (by simp)
        rcases hpr : str_from_buf r.attributes.dump_project with pr | er <;> rw [hpr] at h <;>
          simp only [DecodeOutcome.bindE_ok, DecodeOutcome.bindE_error] at h
        case error => exact absurd h (by simp)
        cases h
        exact ⟨pd, rfl⟩
  · intro e r a nh pa p cs coll proj h1 h2 h3 h4 h5 h6 h7
    refine ⟨?_, ?_⟩ <;> intro ht <;>
      simp [Element.create, ht, decodeElementData, h1, h2, h3, h4, h5, h6, h7]
  · intro e r a pa coll proj h1 h5 h6 h7 ht
    simp [Element.create, ht, decodeElementData, h1, h5, h6, h7]
  · intro e r o n pa coll proj ho hn hpa hco hpr ht
    simp [Element.create, ht, decodeElementData, ho, hn, hpa, hco, hpr]
  · intro e r htag
    rcases htag with ht | ht <;>
      exact ⟨fun er h1 => by simp [Element.create, ht, decodeElementData, h1],
        fun a er h1 h2 => by simp [Element.create, ht, decodeElementData, h1, h2],
        fun a nh er h1 h2 h3 => by
          simp [Element.create, ht, decodeElementData, h1, h2, h3],
        fun a nh p er h1 h2 h3 h4 => by
          simp [Element.create, ht, decodeElementData, h1, h2, h3, h4]⟩
  · intro e r er ht h1
    simp [Element.create, ht, decodeElementData, h1]
  · intro e r et d ht hd
    refine ⟨?_, ?_, ?_⟩
    · intro er hpa
      simp [Element.create, ht, hd, hpa]
    · intro pa er hpa hco
      simp [Element.create, ht, hd, hpa, hco]
    · intro pa coll er hpa hco hpr
      simp [Element.create, ht, hd, hpa, hco, hpr]

/-- Closed witness for `element_create_tag_spec`: the hypotheses discharged at
concrete elements — an unmapped tag, the `Unknown` tag, the announcement,
withdrawal (with deliberately undecodable unread fields) and peer-state
fixtures, a failing instance of each Announcement payload field, a failing
Withdrawal prefix, and a failing shared collector field. -/
theorem element_create_tag_spec_witness :
    Element.create { samplePeerElem with type_ := 99 } sampleRecord = .err .UnexpectedType ∧
    Element.create { samplePeerElem with type_ := 0 } sampleRecord = .err .UnexpectedType ∧
    (∃ d, samplePeerElement.data = .PeerState d) ∧
    Element.create sampleAnnElem sampleRecord =
      .ok ⟨1567756800, .V4 0, 65000, "ris", "rrc00",
        .Announcement ⟨⟨.V4 167772160, 8⟩, .V4 167837953,
          [.As 100, .As 200], [(64512, 20)]⟩⟩ ∧
    Element.create sampleWithdrawElem sampleRecord =
      .ok ⟨1567756800, .V4 0, 65000, "ris", "rrc00",
        .Withdrawl ⟨⟨.V4 167772160, 8⟩⟩⟩ ∧
    Element.create samplePeerElem sampleRecord = .ok samplePeerElement ∧
    Element.create
      { sampleAnnElem with prefix_ := ⟨⟨1, 0, 0, []⟩, 8⟩ } sampleRecord =
      .err (.IpParseError "Incorrect address version 1") ∧
    Element.create
      { sampleAnnElem with nexthop := ⟨1, 0, 0, []⟩ } sampleRecord =
      .err (.IpParseError "Incorrect address version 1") ∧
    Element.create
      { sampleAnnElem with aspath := ⟨4096, []⟩ } sampleRecord =
      .err .AsnParseError ∧
    Element.create
      { sampleAnnElem with communities := ⟨1, [none]⟩ } sampleRecord =
      .err .AsnParseError ∧
    Element.create
      { sampleWithdrawElem with prefix_ := ⟨⟨1, 0, 0, []⟩, 8⟩ } sampleRecord =
      .err (.IpParseError "Incorrect address version 1") ∧
    Element.create samplePeerElem badCollectorRecord = .err .StringParseError := by
  refine ⟨?_, ?_, ?_, ?_, ?_, ?_, ?_, ?_, ?_, ?_, ?_, ?_⟩
  · exact element_create_tag_spec.1 _ sampleRecord (by decide)
  · exact element_create_tag_spec.2.1 _ sampleRecord (by decide)
  · exact (element_create_tag_spec.2.2.1 samplePeerElem sampleRecord samplePeerElement
      (by decide)).2.2.2 (by decide)
  · exact (element_create_tag_spec.2.2.2.1 sampleAnnElem sampleRecord
      (.V4 167772160) (.V4 167837953) (.V4 0) [.As 100, .As 200] [(64512, 20)]
      "rrc00" "ris" (by decide) (by decide) (by decide) (by decide) (by decide)
      (by decide) (by decide)).1 (by decide)
  · exact element_create_tag_spec.2.2.2.2.1 sampleWithdrawElem sampleRecord
      (.V4 167772160) (.V4 0) "rrc00" "ris"
      (by decide) (by decide) (by decide) (by decide) (by decide)
  · exact element_create_tag_spec.2.2.2.2.2.1 samplePeerElem sampleRecord
      .Idle .Established (.V4 0) "rrc00" "ris"
      (by decide) (by decide) (by decide) (by decide) (by decide) (by decide)
  · exact (element_create_tag_spec.2.2.2.2.2.2.1
      { sampleAnnElem with prefix_ := ⟨⟨1, 0, 0, []⟩, 8⟩ } sampleRecord
      (Or.inl (by decide))).1
      (.IpParseError "Incorrect address version 1") (by decide)
  · exact (element_create_tag_spec.2.2.2.2.2.2.1
      { sampleAnnElem with nexthop := ⟨1, 0, 0, []⟩ } sampleRecord
      (Or.inl (by decide))).2.1 (.V4 167772160)
      (.IpParseError "Incorrect address version 1") (by decide) (by decide)
  · exact (element_create_tag_spec.2.2.2.2.2.2.1
      { sampleAnnElem with aspath := ⟨4096, []⟩ } sampleRecord
      (Or.inl (by decide))).2.2.1 (.V4 167772160) (.V4 167837953)
      .AsnParseError (by decide) (by decide) (by decide)
  · exact (element_create_tag_spec.2.2.2.2.2.2.1
      { sampleAnnElem with communities := ⟨1, [none]⟩ } sampleRecord
      (Or.inl (by decide))).2.2.2 (.V4 167772160) (.V4 167837953)
      [.As 100, .As 200] .AsnParseError (by decide) (by decide) (by decide) (by decide)
  · exact element_create_tag_spec.2.2.2.2.2.2.2.1
      { sampleWithdrawElem with prefix_ := ⟨⟨1, 0, 0, []⟩, 8⟩ } sampleRecord
      (.IpParseError "Incorrect address version 1") (by decide) (by decide)
  · exact (element_create_tag_spec.2.2.2.2.2.2.2.2 samplePeerElem badCollectorRecord
      .PeerState (.PeerState ⟨.Idle, .Established⟩) (by decide) (by decide)).2.1
      (.V4 0) .StringParseError (by decide) (by decide)

/-- Claim C2: AS-path decoding. A rendered length of 4096 or more fails the
decode with `AsnParseError` (truncation rejected). Otherwise the rendered
text is split on the space character into tokens in order, each token decoded
by `parsePathNode` (a token opening with a grouping delimiter becomes a
`Collection` of its comma-separated integers, any other token a single-AS
entry, any non-numeric token failing the whole decode), and the output order
equals the token order: a successful decode has exactly one entry per token,
at the token's position. In particular the text `100 200 {300,400} 500`
decodes to `[As 100, As 200, Collection [300,400], As 500]`, and a text with
a non-numeric token fails. -/
theorem as_path_decoding_spec :
    (∀ path : RawAsPath, 4096 ≤ path.snprintf_written →
      parse_as_path path = .error .AsnParseError) ∧
    (∀ (path_str : String) (entries : List PathEntry),
      as_path_from_str path_str = .ok entries →
      entries.length = (splitOnChar ' ' path_str.toList).length ∧
      ∀ (i : Nat) (hl : i < (splitOnChar ' ' path_str.toList).length)
        (hr : i < entries.length),
        parsePathNode ((splitOnChar ' ' path_str.toList).get ⟨i, hl⟩) =
          .ok (entries.get ⟨i, hr⟩)) ∧
    parse_as_path ⟨21, asciiBytes "100 200 \x7b300,400\x7d 500"⟩ =
      .ok [.As 100, .As 200, .Collection [300, 400], .As 500] ∧
    as_path_from_str "100 abc" = .error .AsnParseError := by
  refine ⟨?_, ?_, by decide, by decide⟩
  · intro path h
    unfold parse_as_path
    rw [if_pos h]
  · intro path_str entries h
    obtain ⟨hlen, hget⟩ := mapM_ok_length_get parsePathNode _ entries h
    exact ⟨hlen, fun i hl hr => hget i hl hr⟩

/-- Closed witness for the hypotheses of `as_path_decoding_spec`: a truncated
rendering fails, and the concrete example decode is index-faithful. -/
theorem as_path_decoding_spec_witness :
    parse_as_path ⟨4096, asciiBytes "100"⟩ = .error .AsnParseError ∧
    ([PathEntry.As 7] : List PathEntry).length = (splitOnChar ' ' ("7".toList)).length :=
  ⟨as_path_decoding_spec.1 ⟨4096, asciiBytes "100"⟩ (by decide),
   (as_path_decoding_spec.2.1 "7" [PathEntry.As 7] (by decide)).1⟩

/-- Claim C3: iterator termination is idempotent. Once a pull yields
end-of-sequence the state is `Complete`, and a `Complete` stream yields
end-of-sequence forever with the state untouched (no further collaborator
responses consumed); a negative record-pull result sets `Complete` and yields
exactly one record-retrieval-failure error, after which the next pull yields
end-of-sequence; a zero result sets `Complete` and yields end-of-sequence
immediately. -/
theorem iter_termination_idempotent_spec :
    (∀ (s out_s : IterState), iterNext s = .yield none out_s →
      out_s.state = .Complete ∧ iterNext out_s = .yield none out_s) ∧
    (∀ s : IterState, s.state = .Complete → iterNext s = .yield none s) ∧
    (∀ (s : IterState) (rr : RecResponse) (rest : List RecResponse),
      s.state = .Started → s.env = rr :: rest → rr.ret_code < 0 →
      iterNext s = .yield (some (.error .RecordGetFailure))
        { s with state := .Complete, env := rest } ∧
      iterNext { s with state := .Complete, env := rest } =
        .yield none { s with state := .Complete, env := rest }) ∧
    (∀ (s : IterState) (rr : RecResponse) (rest : List RecResponse),
      s.state = .Started → s.env = rr :: rest → rr.ret_code = 0 →
      iterNext s = .yield none { s with state := .Complete, env := rest }) := by
  refine ⟨?_, ?_, ?_, ?_⟩
  · intro s out_s hy
    have hc := iterNext_yield_none s out_s hy
    exact ⟨hc, iterNext_complete hc⟩
  · intro s h
    exact iterNext_complete h
  · intro s rr rest hst henv hneg
    have hp : pullRecord s = .error (.yield (some (.error .RecordGetFailure))
        { s with state := .Complete, env := rest }) := by
      simp [pullRecord, hst, henv, hneg]
    exact ⟨iterNext_pull_error (by simp [hst, StreamState.ge, StreamState.rank])
        (by simp [hst]) hp,
      iterNext_complete rfl⟩
  · intro s rr rest hst henv hz
    have hp : pullRecord s = .error (.yield none
        { s with state := .Complete, env := rest }) := by
      simp [pullRecord, hst, henv, hz, show ¬ rr.ret_code < 0 from by omega]
    exact iterNext_pull_error (by simp [hst, StreamState.ge, StreamState.rank])
      (by simp [hst]) hp

/-- Closed witness for `iter_termination_idempotent_spec`: a completed
stream, a failing record pull and an exhausted record pull, each on concrete
states. -/
theorem iter_termination_idempotent_spec_witness :
    (({ state := .Complete, record := sampleRecord, pending := [], env := [] }
        : IterState).state = .Complete ∧
      iterNext { state := .Complete, record := sampleRecord, pending := [], env := [] } =
        .yield none { state := .Complete, record := sampleRecord, pending := [], env := [] }) ∧
    iterNext { state := .Started, record := sampleRecord, pending := [],
               env := [⟨-1, sampleRecord, []⟩] } =
      .yield (some (.error .RecordGetFailure))
        { state := .Complete, record := sampleRecord, pending := [], env := [] } ∧
    iterNext { state := .Started, record := sampleRecord, pending := [],
               env := [⟨0, sampleRecord, []⟩] } =
      .yield none { state := .Complete, record := sampleRecord, pending := [], env := [] } :=
  ⟨iter_termination_idempotent_spec.1
      { state := .Complete, record := sampleRecord, pending := [], env := [] }
      { state := .Complete, record := sampleRecord, pending := [], env := [] }
      (by unfold iterNext; rfl),
   (iter_termination_idempotent_spec.2.2.1
      { state := .Started, record := sampleRecord, pending := [], env := [⟨-1, sampleRecord, []⟩] }
      ⟨-1, sampleRecord, []⟩ [] rfl rfl (by decide)).1,
   iter_termination_idempotent_spec.2.2.2
      { state := .Started, record := sampleRecord, pending := [], env := [⟨0, sampleRecord, []⟩] }
      ⟨0, sampleRecord, []⟩ [] rfl rfl rfl⟩

/-- Claim C4: stream configuration ordering. `add_filter` never changes the
stream; both `add_filter` and `add_interval_filter` succeed (modulo
collaborator rejection of the filter text) whenever the state is below
`Started`, any number of times, and fail with the out-of-order-operation
error once the state is `Started` or beyond; `iter` fails with the
out-of-order-operation error whenever the state is `Started` or beyond, and
since any `iter` call from a pre-start state leaves the state `Started`,
iteration can be started at most once per stream. -/
theorem stream_config_ordering_spec :
    (∀ (s : Bgp.Stream) (f : String) (pr : Int),
      (Bgp.Stream.add_filter s f pr).2 = s) ∧
    (∀ (s : Bgp.Stream) (f : String) (pr : Int),
      ¬ StreamState.ge s.state .Started = true →
      pr ≠ 0 → ¬ f.toList.contains (Char.ofNat 0) = true →
      (Bgp.Stream.add_filter s f pr).1 = .ok ()) ∧
    (∀ (s : Bgp.Stream) (f : String) (pr : Int),
      StreamState.ge s.state .Started = true →
      Bgp.Stream.add_filter s f pr =
        (.error (.OperationOutOfOrder "Cannot add filter after running"), s)) ∧
    (∀ (s : Bgp.Stream) (b e : Nat),
      ¬ StreamState.ge s.state .Started = true →
      Bgp.Stream.add_interval_filter s b e = (.ok (), { s with state := .IntervalSet })) ∧
    (∀ (s : Bgp.Stream) (b e : Nat),
      StreamState.ge s.state .Started = true →
      Bgp.Stream.add_interval_filter s b e =
        (.error (.OperationOutOfOrder "Cannot change interval after running"), s)) ∧
    (∀ (s : Bgp.Stream) (res : Int),
      StreamState.ge s.state .Started = true →
      Bgp.Stream.iter s res =
        (.error (.OperationOutOfOrder
          "Must start after interval is set and can only be done once"), s)) ∧
    (∀ (s : Bgp.Stream) (res res2 : Int),
      ¬ StreamState.ge s.state .Started = true →
      (Bgp.Stream.iter (Bgp.Stream.iter s res).2 res2).1 =
        .error (.OperationOutOfOrder
          "Must start after interval is set and can only be done once")) := by
  refine ⟨?_, ?_, ?_, ?_, ?_, ?_, ?_⟩
  · intro s f pr
    unfold Bgp.Stream.add_filter
    split
    · rfl
    split
    · rfl
    split <;> rfl
  · intro s f pr hpre hres hnul
    unfold Bgp.Stream.add_filter
    rw [if_neg (by simpa using hpre), if_neg (by simpa using hnul), if_neg hres]
  · intro s f pr hge
    simp [Bgp.Stream.add_filter, hge]
  · intro s b e hpre
    simp [Bgp.Stream.add_interval_filter, hpre]
  · intro s b e hge
    simp [Bgp.Stream.add_interval_filter, hge]
  · intro s res hge
    simp [Bgp.Stream.iter, hge]
  · intro s res res2 hpre
    have h2 : (Bgp.Stream.iter s res).2.state = .Started := by
      unfold Bgp.Stream.iter
      rw [if_neg (by simpa using hpre)]
      split <;> rfl
    generalize hst2 : (Bgp.Stream.iter s res).2 = t
    rw [hst2] at h2
    simp [Bgp.Stream.iter, h2, StreamState.ge, StreamState.rank]

/-- Closed witness for `stream_config_ordering_spec`: the hypotheses
discharged on concrete streams in the `New` and `Complete` states. -/
theorem stream_config_ordering_spec_witness :
    (Bgp.Stream.add_filter ⟨.New⟩ "collector rrc00" 1).1 = .ok () ∧
    Bgp.Stream.add_filter ⟨.Complete⟩ "x" 1 =
      (.error (.OperationOutOfOrder "Cannot add filter after running"), ⟨.Complete⟩) ∧
    Bgp.Stream.add_interval_filter ⟨.New⟩ 1567756800 1567756801 =
      (.ok (), ⟨.IntervalSet⟩) ∧
    Bgp.Stream.add_interval_filter ⟨.Started⟩ 0 0 =
      (.error (.OperationOutOfOrder "Cannot change interval after running"), ⟨.Started⟩) ∧
    Bgp.Stream.iter ⟨.Ongoing⟩ 0 =
      (.error (.OperationOutOfOrder
        "Must start after interval is set and can only be done once"), ⟨.Ongoing⟩) ∧
    (Bgp.Stream.iter (Bgp.Stream.iter ⟨.IntervalSet⟩ 0).2 0).1 =
      .error (.OperationOutOfOrder
        "Must start after interval is set and can only be done once") :=
  ⟨stream_config_ordering_spec.2.1 ⟨.New⟩ "collector rrc00" 1 (by decide) (by decide) (by decide),
   stream_config_ordering_spec.2.2.1 ⟨.Complete⟩ "x" 1 (by decide),
   stream_config_ordering_spec.2.2.2.1 ⟨.New⟩ 1567756800 1567756801 (by decide),
   stream_config_ordering_spec.2.2.2.2.1 ⟨.Started⟩ 0 0 (by decide),
   stream_config_ordering_spec.2.2.2.2.2.1 ⟨.Ongoing⟩ 0 (by decide),
   stream_config_ordering_spec.2.2.2.2.2.2 ⟨.IntervalSet⟩ 0 0 (by decide)⟩

/-- Claim C5: an element-level decode failure does not terminate iteration.
With the stream `Ongoing` and an element available whose decode fails,
`Iter::next` yields exactly one wrapped element-failure error for that
element, the state stays `Ongoing`, and the collaborator response sequence is
untouched, so the caller can keep pulling (in contrast to record-level
failures, which set `Complete`). -/
theorem element_failure_keeps_going_spec (s : IterState) (e : RawElem)
    (es : List RawElem) (er : ElementError) (hst : s.state = .Ongoing)
    (hp : s.pending = e :: es) (hd : Element.create e s.record = .err er) :
    iterNext s = .yield (some (.error (.ElementFailure er))) { s with pending := es } ∧
    ({ s with pending := es } : IterState).state = .Ongoing ∧
    ({ s with pending := es } : IterState).env = s.env := by
  refine ⟨?_, by simpa using hst, rfl⟩
  have hpr : pullRecord s = .ok s := by
    unfold pullRecord
    rw [if_neg (by simp [hst])]
  rw [iterNext_pull_ok_cons (by simp [hst, StreamState.ge, StreamState.rank])
    (by simp [hst]) hpr hp, hd]

/-- Closed witness for `element_failure_keeps_going_spec`: an element with an
unmapped tag inside an `Ongoing` stream produces one wrapped failure and the
state stays `Ongoing`. -/
theorem element_failure_keeps_going_spec_witness :
    iterNext { state := .Ongoing, record := sampleRecord,
               pending := [{ samplePeerElem with type_ := 99 }], env := [] } =
      .yield (some (.error (.ElementFailure .UnexpectedType)))
        { state := .Ongoing, record := sampleRecord, pending := [], env := [] } ∧
    ({ state := .Ongoing, record := sampleRecord, pending := [], env := [] }
      : IterState).state = .Ongoing :=
  ⟨(element_failure_keeps_going_spec
      { state := .Ongoing, record := sampleRecord,
        pending := [{ samplePeerElem with type_ := 99 }], env := [] }
      { samplePeerElem with type_ := 99 } [] .UnexpectedType rfl rfl (by decide)).1,
   rfl⟩

/-- Claim C6: a record with no element remaining regresses the stream from
`Ongoing` back to `Started` and retries the pull against the next record
within the same call; the retries are bounded by the number of zero-element
records — over any finite collaborator response sequence of positive,
element-less records the pull terminates with end-of-sequence at stream
exhaustion (`iterNext` being total, termination holds for every input under
the modelled precondition that the collaborator eventually reports
exhaustion). -/
theorem empty_record_retry_spec :
    (∀ s : IterState, s.state = .Ongoing → s.pending = [] →
      iterNext s = iterNext { s with state := .Started }) ∧
    (∀ env : List RecResponse, (∀ rr ∈ env, 0 < rr.ret_code ∧ rr.elems = []) →
      ∀ s : IterState, s.state = .Started → s.env = env →
      ∃ s2, iterNext s = .yield none s2 ∧ s2.state = .Complete ∧ s2.env = []) := by
  constructor
  · intro s hst hp
    have hpr : pullRecord s = .ok s := by
      unfold pullRecord
      rw [if_neg (by simp [hst])]
    exact iterNext_pull_ok_nil (by simp [hst, StreamState.ge, StreamState.rank])
      (by simp [hst]) hpr hp
  · intro env
    induction env with
    | nil =>
      intro hall s hst henv
      refine ⟨{ s with state := .Complete }, ?_, rfl, by simp [henv]⟩
      have hp : pullRecord s = .error (.yield none { s with state := .Complete }) := by
        simp [pullRecord, hst, henv]
      exact iterNext_pull_error (by simp [hst, StreamState.ge, StreamState.rank])
        (by simp [hst]) hp
    | cons rr rest ih =>
      intro hall s hst henv
      have h1 := hall rr (by simp)
      have hp : pullRecord s = .ok { s with state := .Ongoing, env := rest,
                                            record := rr.record, pending := rr.elems } := by
        simp [pullRecord, hst, henv, show ¬ rr.ret_code < 0 from by omega,
          show ¬ rr.ret_code = 0 from by omega]
      obtain ⟨s2, hs2, hc, he⟩ := ih (fun q hq => hall q (by simp [hq]))
        { s with state := .Started, env := rest, record := rr.record, pending := rr.elems }
        rfl rfl
      refine ⟨s2, ?_, hc, he⟩
      rw [iterNext_pull_ok_nil (by simp [hst, StreamState.ge, StreamState.rank])
        (by simp [hst]) hp (by simpa using h1.2)]
      exact hs2

/-- Closed witness for `empty_record_retry_spec`: the regress-and-retry
equation at a concrete `Ongoing` state, and exhaustion through one concrete
positive record with no elements. -/
theorem empty_record_retry_spec_witness :
    iterNext { state := .Ongoing, record := sampleRecord, pending := [],
               env := [⟨1, sampleRecord, []⟩] } =
      iterNext { state := .Started, record := sampleRecord, pending := [],
                 env := [⟨1, sampleRecord, []⟩] } ∧
    ∃ s2, iterNext { state := .Started, record := sampleRecord, pending := [],
                     env := [⟨1, sampleRecord, []⟩] } = .yield none s2 ∧
      s2.state = .Complete ∧ s2.env = [] :=
  ⟨empty_record_retry_spec.1
      { state := .Ongoing, record := sampleRecord, pending := [],
        env := [⟨1, sampleRecord, []⟩] } rfl rfl,
   empty_record_retry_spec.2 [⟨1, sampleRecord, []⟩] (by decide)
      { state := .Started, record := sampleRecord, pending := [],
        env := [⟨1, sampleRecord, []⟩] } rfl rfl⟩

/-- Claim C7: for a PeerState element, an old or new numeric state code with
no named peer-state mapping makes the decode fatal (the reference behavior
aborts through `.unwrap()` rather than returning a recoverable error); when
both codes map to named states the PeerState branch never aborts, and any
element it produces carries exactly those two states. -/
theorem peer_state_fatal_spec (e : RawElem) (r : RawRecord)
    (ht : ElementType.from_u32 e.type_ = some .PeerState) :
    ((PeerState.from_u32 e.old_state = none ∨ PeerState.from_u32 e.new_state = none) →
      Element.create e r = .fatal) ∧
    (∀ o n, PeerState.from_u32 e.old_state = some o →
      PeerState.from_u32 e.new_state = some n →
      Element.create e r ≠ .fatal ∧
      ∀ el, Element.create e r = .ok el → el.data = .PeerState ⟨o, n⟩) := by
  constructor
  · rintro (ho | hn)
    · simp [Element.create, ht, decodeElementData, ho]
    · rcases ho : PeerState.from_u32 e.old_state with _ | o
      · simp [Element.create, ht, decodeElementData, ho]
      · simp [Element.create, ht, decodeElementData, ho, hn]
  · intro o n ho hn
    rw [Element.create, ht]
    simp only [decodeElementData, ho, hn]
    rcases hpa : parse_addr e.peer_address with pa | er <;>
      simp only [hpa, DecodeOutcome.bindE_ok, DecodeOutcome.bindE_error]
    case error => simp
    rcases hco : str_from_buf r.attributes.dump_collector with co | er <;>
      simp only [DecodeOutcome.bindE_ok, DecodeOutcome.bindE_error]
    case error => simp
    rcases hpr : str_from_buf r.attributes.dump_project with pr | er <;>
      simp only [DecodeOutcome.bindE_ok, DecodeOutcome.bindE_error]
    case error => simp
    constructor
    · simp
    · intro el h
      cases h
      rfl

/-- Closed witness for `peer_state_fatal_spec`: an unmapped old-state code 99
is fatal, and the mapped concrete fixture decodes to Idle/Established. -/
theorem peer_state_fatal_spec_witness :
    Element.create { samplePeerElem with old_state := 99 } sampleRecord = .fatal ∧
    samplePeerElement.data = .PeerState ⟨.Idle, .Established⟩ :=
  ⟨(peer_state_fatal_spec { samplePeerElem with old_state := 99 } sampleRecord
      (by decide)).1 (Or.inl (by decide)),
   (peer_state_fatal_spec samplePeerElem sampleRecord (by decide)).2
      .Idle .Established (by decide) (by decide) |>.2 samplePeerElement (by decide)⟩

/-- Claim C8: address decoding succeeds exactly when the version marker
denotes 4 or 6 (the collaborator response recorded in `version_number`),
producing the typed IPv4 respectively IPv6 value, and fails with
`IpParseError` for any other marker; version 4 with an all-zero address
decodes to 0.0.0.0 (all four octets zero). -/
theorem parse_addr_spec (addr : BgpstreamAddrStorage) :
    (addr.version_number = 4 → parse_addr addr = .ok (.V4 addr.ipv4_s_addr)) ∧
    (addr.version_number = 6 → parse_addr addr = .ok (.V6 addr.ipv6_bytes)) ∧
    (addr.version_number ≠ 4 → addr.version_number ≠ 6 →
      parse_addr addr =
        .error (.IpParseError ("Incorrect address version " ++ toString addr.version))) ∧
    ((∃ a, parse_addr addr = .ok a) ↔
      (addr.version_number = 4 ∨ addr.version_number = 6)) ∧
    (parse_addr ⟨4, 4, 0, []⟩ = .ok (.V4 0) ∧ ipv4Octets 0 = (0, 0, 0, 0)) := by
  refine ⟨?_, ?_, ?_, ?_, by decide, by decide⟩
  · intro h; simp [parse_addr, h]
  · intro h; simp [parse_addr, h]
  · intro h4 h6
    unfold parse_addr
    split <;> simp_all
  · unfold parse_addr
    split <;> simp_all

/-- Closed witness for `parse_addr_spec`: each dispatch hypothesis discharged
at a concrete address. -/
theorem parse_addr_spec_witness :
    parse_addr ⟨4, 4, 0, []⟩ = .ok (.V4 0) ∧
    parse_addr ⟨10, 6, 0, [1, 2]⟩ = .ok (.V6 [1, 2]) ∧
    parse_addr ⟨9, 0, 7, []⟩ = .error (.IpParseError "Incorrect address version 9") :=
  ⟨(parse_addr_spec ⟨4, 4, 0, []⟩).1 rfl,
   (parse_addr_spec ⟨10, 6, 0, [1, 2]⟩).2.1 rfl,
   (parse_addr_spec ⟨9, 0, 7, []⟩).2.2.1 (by decide) (by decide)⟩

/-- Claim C9: the element decoder takes the raw element together with its
parent container record and decodes the record's fixed-size `dump_collector`
and `dump_project` buffers as bounded, possibly-unterminated text: a buffer
with no terminator byte within bounds fails with `StringParseError`; one
whose bytes before the first terminator are not valid UTF-8 fails with a
`Utf8Error`; otherwise the decode yields exactly the text before the first
terminator, and a successfully created `Element` carries a copy of those
texts in its `collector` and `project` fields. -/
theorem str_from_buf_record_fields_spec :
    (∀ buf : List Nat, buf.findIdx? (fun b => b == 0) = none →
      str_from_buf buf = .error .StringParseError) ∧
    (∀ (buf : List Nat) (i : Nat), buf.findIdx? (fun b => b == 0) = some i →
      utf8Decode (buf.take i) = none →
      str_from_buf buf = .error (.Utf8Error utf8ErrorMessage)) ∧
    (∀ (buf : List Nat) (i : Nat) (cs : List Char),
      buf.findIdx? (fun b => b == 0) = some i →
      utf8Decode (buf.take i) = some cs →
      str_from_buf buf = .ok (String.mk cs)) ∧
    (∀ (e : RawElem) (r : RawRecord) (el : Element),
      Element.create e r = .ok el →
      str_from_buf r.attributes.dump_collector = .ok el.collector ∧
      str_from_buf r.attributes.dump_project = .ok el.project) := by
  refine ⟨?_, ?_, ?_, ?_⟩
  · intro buf h
    unfold str_from_buf
    rw [h]
    simp only [cstr_of_no_nul h]
  · intro buf i h hu
    unfold str_from_buf
    rw [h]
    simp only [cstr_of_first_nul h, hu]
  · intro buf i cs h hu
    unfold str_from_buf
    rw [h]
    simp only [cstr_of_first_nul h, hu]
  · intro e r el h
    unfold Element.create at h
    split at h
    · exact absurd h (by simp)
    · split at h
      · exact absurd h (by simp)
      · exact absurd h (by simp)
      · rcases hpa : parse_addr e.peer_address with pa | er <;> rw [hpa] at h
        case error => exact absurd h (by simp)
        rw [DecodeOutcome.bindE_ok] at h
        rcases hco : str_from_buf r.attributes.dump_collector with co | er <;> rw [hco] at h
        case error => exact absurd h (by simp)
        rw [DecodeOutcome.bindE_ok] at h
        rcases hpr : str_from_buf r.attributes.dump_project with pr | er <;> rw [hpr] at h
        case error => exact absurd h (by simp)
        rw [DecodeOutcome.bindE_ok] at h
        cases h
        exact ⟨rfl, rfl⟩

/-- Closed witness for `str_from_buf_record_fields_spec`: each decode case on
a concrete buffer, and the concrete peer-state element owning its record's
collector and project texts. -/
theorem str_from_buf_record_fields_spec_witness :
    str_from_buf (asciiBytes "abc") = .error .StringParseError ∧
    str_from_buf [200, 0] = .error (.Utf8Error utf8ErrorMessage) ∧
    str_from_buf (asciiBytes "ris" ++ [0]) = .ok "ris" ∧
    (str_from_buf sampleRecord.attributes.dump_collector = .ok samplePeerElement.collector ∧
     str_from_buf sampleRecord.attributes.dump_project = .ok samplePeerElement.project) :=
  ⟨str_from_buf_record_fields_spec.1 (asciiBytes "abc") (by decide),
   str_from_buf_record_fields_spec.2.1 [200, 0] 1 (by decide) (by decide),
   str_from_buf_record_fields_spec.2.2.1 (asciiBytes "ris" ++ [0]) 3 ("ris".toList)
     (by decide) (by decide),
   str_from_buf_record_fields_spec.2.2.2 samplePeerElem sampleRecord samplePeerElement
     (by decide)⟩

/-- Claim C10: a failed start is not atomic. When `iter` is called in a valid
pre-start state but the collaborator start operation fails (nonzero result),
the error `StartFailed` is reported with the state already advanced to
`Started`; consequently every subsequent `add_filter`, `add_interval_filter`
or `iter` call on that stream fails with an out-of-order-operation error, so
a failed start can never be retried or reconfigured. -/
theorem iter_start_failure_spec (s : Bgp.Stream) (res : Int)
    (hpre : ¬ StreamState.ge s.state .Started = true) (hfail : res ≠ 0) :
    Bgp.Stream.iter s res = (.error .StartFailed, ⟨.Started⟩) ∧
    (∀ (f : String) (pr : Int),
      (Bgp.Stream.add_filter (Bgp.Stream.iter s res).2 f pr).1 =
        .error (.OperationOutOfOrder "Cannot add filter after running")) ∧
    (∀ (b e : Nat),
      (Bgp.Stream.add_interval_filter (Bgp.Stream.iter s res).2 b e).1 =
        .error (.OperationOutOfOrder "Cannot change interval after running")) ∧
    (∀ res2 : Int,
      (Bgp.Stream.iter (Bgp.Stream.iter s res).2 res2).1 =
        .error (.OperationOutOfOrder
          "Must start after interval is set and can only be done once")) := by
  have hit : Bgp.Stream.iter s res = (.error .StartFailed, ⟨.Started⟩) := by
    simp [Bgp.Stream.iter, hpre, hfail]
  refine ⟨hit, ?_, ?_, ?_⟩
  · intro f pr
    rw [hit]
    simp [Bgp.Stream.add_filter, StreamState.ge, StreamState.rank]
  · intro b e
    rw [hit]
    simp [Bgp.Stream.add_interval_filter, StreamState.ge, StreamState.rank]
  · intro res2
    rw [hit]
    simp [Bgp.Stream.iter, StreamState.ge, StreamState.rank]

/-- Closed witness for `iter_start_failure_spec`: a start failure on a fresh
stream, with every follow-up operation rejected. -/
theorem iter_start_failure_spec_witness :
    Bgp.Stream.iter ⟨.New⟩ (-1) = (.error .StartFailed, ⟨.Started⟩) ∧
    (Bgp.Stream.add_filter (Bgp.Stream.iter ⟨.New⟩ (-1)).2 "f" 1).1 =
      .error (.OperationOutOfOrder "Cannot add filter after running") ∧
    (Bgp.Stream.iter (Bgp.Stream.iter ⟨.New⟩ (-1)).2 0).1 =
      .error (.OperationOutOfOrder
        "Must start after interval is set and can only be done once") :=
  ⟨(iter_start_failure_spec ⟨.New⟩ (-1) (by decide) (by decide)).1,
   (iter_start_failure_spec ⟨.New⟩ (-1) (by decide) (by decide)).2.1 "f" 1,
   (iter_start_failure_spec ⟨.New⟩ (-1) (by decide) (by decide)).2.2.2 0⟩
